import Mathlib

/-!
Shallow embedding of the `deno lint` orchestration layer of this repository
(`src/cli/rslint/mod.rs` and `src/cli/rslint/explain.rs`), together with the
theorems settling the specification claims about it.

Conventions.  Pure Rust functions become Lean functions; a Rust operation that
can panic (index out of bounds, `unwrap`, arithmetic underflow, slicing off a
char boundary) is embedded as an `Option`-returning function where `none`
stands for the panic.  Rust byte strings whose byte-level behaviour matters
(`str::find`, `String::truncate`, `String::replace_range`) are embedded as
`List Nat` of bytes; text whose byte layout is irrelevant is embedded as
`String` or `List Char`.  Types owned by external crates (`rslint_core`,
`codespan_reporting`) that are not under `src/` are modelled from the spec and
say so in their doc comments.
-/

namespace Rslint

/-- Diagnostic severity as in `codespan_reporting::diagnostic::Severity`:
`Bug | Error | Warning | Note | Help`. -/
inductive Severity where
  | Bug
  | Error
  | Warning
  | Note
  | Help
  deriving DecidableEq

/-- Modelled from the spec: `rslint_core::RuleLevel` is not under `src/`.
§3/§4.2 give the configured levels reaching the remapper as Warning and Error
(level Off is excluded upstream by removing the rule from the store). -/
inductive RuleLevel where
  | Warning
  | Error
  deriving DecidableEq

/-- A diagnostic: its severity plus an opaque payload standing for every other
field (rule code, message, labels, attached remediation text), none of which
the severity remapper touches. -/
structure Diagnostic where
  severity : Severity
  payload : String
  deriving DecidableEq

/-- Body of the loop of `remap_diagnostics_to_level`
(`src/cli/rslint/mod.rs:194-206`): the source matches
`Severity::Error | Severity::Bug if level == RuleLevel::Warning` and assigns
`Severity::Warning`; every other case falls through unchanged. -/
def remapOne (level : RuleLevel) (d : Diagnostic) : Diagnostic :=
  match d.severity with
  | Severity.Error =>
      if level = RuleLevel.Warning then { d with severity := Severity.Warning } else d
  | Severity.Bug =>
      if level = RuleLevel.Warning then { d with severity := Severity.Warning } else d
  | _ => d

/-- `remap_diagnostics_to_level` (`src/cli/rslint/mod.rs:194-206`): remap each
diagnostic of the sequence in place. -/
def remap_diagnostics_to_level (diagnostics : List Diagnostic) (level : RuleLevel) :
    List Diagnostic :=
  diagnostics.map (remapOne level)

/-- Modelled from the spec: `rslint_core::Outcome` (§3), the per-file and
whole-run classification `Success | Warning | Failure`. -/
inductive Outcome where
  | Success
  | Warning
  | Failure
  deriving DecidableEq, Fintype

/-- Modelled from the spec: binary maximum for the ordering
Failure > Warning > Success (§3, "merge = maximum"). -/
def outcomeMax : Outcome → Outcome → Outcome
  | Outcome.Failure, _ => Outcome.Failure
  | _, Outcome.Failure => Outcome.Failure
  | Outcome.Warning, _ => Outcome.Warning
  | _, Outcome.Warning => Outcome.Warning
  | Outcome.Success, Outcome.Success => Outcome.Success

/-- Modelled from the spec: `rslint_core::Outcome::merge` (called at
`src/cli/rslint/mod.rs:141`) folds all per-file outcomes with the three-way
maximum; the empty collection merges to Success (§3). -/
def Outcome.merge (l : List Outcome) : Outcome :=
  l.foldl outcomeMax Outcome.Success

/-- Modelled from the spec: a per-file lint result (§3) carries the owning file
id and the map from rule name to that rule's ordered diagnostics. -/
structure LintResult where
  file_id : Nat
  rule_diagnostics : List (String × List Diagnostic)
  deriving DecidableEq

/-- All diagnostics of a lint result, in engine order. -/
def LintResult.diagnostics (r : LintResult) : List Diagnostic :=
  (r.rule_diagnostics.map Prod.snd).flatten

/-- Modelled from the spec: the per-file outcome is a pure function of the
diagnostics' severities (§3: any Error/Bug ⇒ Failure; else any Warning ⇒
Warning; else Success). -/
def LintResult.outcome (r : LintResult) : Outcome :=
  if r.diagnostics.any (fun d => d.severity == Severity.Error || d.severity == Severity.Bug) then
    Outcome.Failure
  else if r.diagnostics.any (fun d => d.severity == Severity.Warning) then
    Outcome.Warning
  else
    Outcome.Success

/-- The collection step of the per-file fan-out in `lint_files`
(`src/cli/rslint/mod.rs:93-114`): a fatal engine failure (`Err(diagnostic)`)
is emitted immediately (first component, the rendered fatal diagnostics) and
dropped from the surviving results (second component); `Ok` results are kept
in order. -/
def processResults : List (Except Diagnostic LintResult) → List Diagnostic × List LintResult
  | [] => ([], [])
  | Except.error d :: rest =>
      let p := processResults rest
      (d :: p.1, p.2)
  | Except.ok r :: rest =>
      let p := processResults rest
      (p.1, r :: p.2)

/-- One of the three outcome counters of `lint_files`
(`src/cli/rslint/mod.rs:128-139`). -/
def countOutcome (o : Outcome) (l : List LintResult) : Nat :=
  (l.filter (fun r => r.outcome == o)).length

/-- The overall run outcome of `lint_files` (`src/cli/rslint/mod.rs:141`). -/
def overallOutcome (l : List LintResult) : Outcome :=
  Outcome.merge (l.map LintResult.outcome)

/-- Result of evaluating the entry guard of `lint_files`
(`src/cli/rslint/mod.rs:44-47`):
`if args.len() == 0 && args[0] == "-" { todo!("stdin linting") }`.
`crashIndex` is the index-out-of-bounds panic of `args[0]` on an empty vector,
`stdinPlaceholder` is reaching the `todo!`, `proceed` continues into linting. -/
inductive EntryStep where
  | crashIndex
  | stdinPlaceholder
  | proceed (args : List String)
  deriving DecidableEq

/-- The entry guard itself, faithful to Rust's short-circuit evaluation: the
right operand `args[0] == "-"` is evaluated only when `args.len() == 0`, and
indexing an empty vector panics before the comparison can happen. -/
def lint_files_entry (args : List String) : EntryStep :=
  if args.length = 0 then
    match args[0]? with
    | none => EntryStep.crashIndex
    | some a => if a = "-" then EntryStep.stdinPlaceholder else EntryStep.proceed args
  else
    EntryStep.proceed args

/-! ### Configuration-error post-processing (`src/cli/rslint/mod.rs:53-79`) -/

/-- The apostrophe character of the `did you mean` fragment. -/
def quoteC : Char := Char.ofNat 39

/-- The newline character; the regex wildcard `.` does not match it. -/
def nlC : Char := Char.ofNat 10

/-- Does the regex `at line \d+` match at the head of `l`?  Only the match
start is used by the source (`location_regex.find(..).range().start`), so the
greedy `\d+` reduces to the literal `at line ` followed by one digit. -/
def atLineHere (l : List Char) : Bool :=
  "at line ".toList.isPrefixOf l &&
    (match l.drop 8 with
     | c :: _ => c.isDigit
     | [] => false)

/-- Index of the leftmost `at line \d+` match, as `location_regex.find`
returns it; `none` models the `.unwrap()` panic when there is no match. -/
def findLoc : List Char → Option Nat
  | [] => none
  | c :: rest =>
      if atLineHere (c :: rest) then some 0
      else (findLoc rest).map (· + 1)

/-- The 16-character literal head of the regex `\. did you mean '(.*?)'\?`. -/
def dymHead : List Char := ". did you mean ".toList ++ [quoteC]

/-- The lazy tail `(.*?)'\?` after the literal head: the shortest run of
non-newline characters followed by a quote and a question mark; `none` when a
newline (which `.` does not match) or the end of the text intervenes. -/
def dymCapture : List Char → Option (List Char)
  | [] => none
  | c :: rest =>
      if c == quoteC && rest.head? == some '?' then some []
      else if c == nlC then none
      else (dymCapture rest).map (fun cap => c :: cap)

/-- A full match of the `did you mean` regex starting exactly here, returning
the capture group. -/
def dymHere (l : List Char) : Option (List Char) :=
  if dymHead.isPrefixOf l then dymCapture (l.drop 16) else none

/-- Leftmost match of the `did you mean` regex: start position and capture.
The whole match spans `capture.length + 18` characters from the start. -/
def findDym : List Char → Option (Nat × List Char)
  | [] => none
  | c :: rest =>
      match dymHere (c :: rest) with
      | some cap => some (0, cap)
      | none => (findDym rest).map (fun p => (p.1 + 1, p.2))

/-- The remediation text attached through
`.note(format!("help: did you mean .. ?", ..))`. -/
def dymNote (cap : List Char) : List Char :=
  "help: did you mean ".toList ++ (quoteC :: cap) ++ [quoteC, '?']

/-- The message surgery of the config-error branch of `lint_files`
(`src/cli/rslint/mod.rs:56-73`): truncate the raw message at the start of the
leftmost `at line \d+` match (the `.unwrap()` panics — `none` — when there is
no match); then, when the truncated message contains a `did you mean` fragment,
remove that fragment from the message and attach the suggestion as a separate
note.  Returns the diagnostic message and the optional note. -/
def processConfigError (msg : List Char) : Option (List Char × Option (List Char)) :=
  match findLoc msg with
  | none => none
  | some loc =>
      let m := msg.take loc
      match findDym m with
      | none => some (m, none)
      | some (i, cap) => some (m.take i ++ m.drop (i + (cap.length + 18)), some (dymNote cap))

/-- Outcome of the configuration-loading join in `lint_files`
(`src/cli/rslint/mod.rs:49-79`): either a usable configuration (or none) was
produced, or loading failed with an error rendering to `msg`. -/
inductive ConfigLoad where
  | parsed
  | failed (msg : List Char)

/-- What the run does at the configuration boundary. -/
inductive ConfigPhase where
  | reported (msg : List Char) (help : Option (List Char))
  | crashed
  | proceed
  deriving DecidableEq

/-- The configuration boundary of `lint_files` (`src/cli/rslint/mod.rs:53-79`):
a failed load runs the message surgery and emits exactly one diagnostic, then
returns `Ok(())` before any file is linted (`reported`) — unless the surgery
panics (`crashed`); a successful load proceeds into linting. -/
def configPhase : ConfigLoad → ConfigPhase
  | ConfigLoad.parsed => ConfigPhase.proceed
  | ConfigLoad.failed msg =>
      match processConfigError msg with
      | some (m, help) => ConfigPhase.reported m help
      | none => ConfigPhase.crashed

/-! ### Byte-level strings for the explain text pipeline (`src/cli/rslint/explain.rs`)

Rust `String`s are UTF-8 byte sequences and the operations of interest
(`str::find`, `String::truncate`, `String::replace_range`) work with byte
indices and char boundaries, so documents are embedded as `List Nat` of
bytes here. -/

/-- Byte-level test: is the first list a prefix of the second? -/
def isPre : List Nat → List Nat → Bool
  | [], _ => true
  | _ :: _, [] => false
  | a :: as, b :: bs => a == b && isPre as bs

/-- `str::find` with a literal pattern: byte index of the leftmost occurrence. -/
def listFind (pat : List Nat) : List Nat → Option Nat
  | [] => if pat.isEmpty then some 0 else none
  | b :: rest => if isPre pat (b :: rest) then some 0 else (listFind pat rest).map (· + 1)

/-- Rust `str::is_char_boundary` at the byte level: true at the end of the
string, false past it, and otherwise the byte at the index must not be a
UTF-8 continuation byte (`0x80 ..= 0xBF`). -/
def isCharBoundary (s : List Nat) (i : Nat) : Bool :=
  if i = s.length then true
  else
    match s[i]? with
    | some b => decide (b < 128 ∨ 192 ≤ b)
    | none => false

/-- Rust `String::truncate(n)`: a no-op when `n` exceeds the length; otherwise
keeps the first `n` bytes, panicking (`none`) when `n` is not a char boundary. -/
def listTruncate (s : List Nat) (n : Nat) : Option (List Nat) :=
  if n ≤ s.length then
    (if isCharBoundary s n then some (s.take n) else none)
  else some s

/-- Loop body of `strip_rule_preludes` (`src/cli/rslint/explain.rs:48-52`):
`rule.replace_range(0..70, "")`.  `replace_range` asserts both range ends lie
on char boundaries, so a document shorter than 70 bytes — or one whose byte 70
falls inside a multi-byte character — panics (`none`); otherwise exactly the
first 70 bytes are removed. -/
def strip_rule_prelude (s : List Nat) : Option (List Nat) :=
  if isCharBoundary s 70 then some (s.drop 70) else none

/-- Stage 1 over all fetched documents (the loop of `strip_rule_preludes`). -/
def strip_rule_preludes (docs : List (List Nat)) : Option (List (List Nat)) :=
  docs.mapM strip_rule_prelude

/-- The bytes of the `"# Config"` heading marker. -/
def configMarker : List Nat := [35, 32, 67, 111, 110, 102, 105, 103]

/-- The bytes of the `"<details>"` expandable-details marker. -/
def detailsMarker : List Nat := [60, 100, 101, 116, 97, 105, 108, 115, 62]

/-- One `if let Some(idx) = rule.find(pat) { rule.truncate(idx - 1) }` step of
`strip_config_or_extra_examples` (`src/cli/rslint/explain.rs:76-85`).  The
`usize` subtraction `idx - 1` underflows (panics, `none`) when the marker sits
at byte 0, and `truncate` panics when `idx - 1` is not a char boundary. -/
def truncAtMarker (pat s : List Nat) : Option (List Nat) :=
  match listFind pat s with
  | none => some s
  | some idx => if idx = 0 then none else listTruncate s (idx - 1)

/-- `strip_config_or_extra_examples` (`src/cli/rslint/explain.rs:76-85`):
truncate at the `"# Config"` marker first, then search the already-truncated
text for `"<details>"` and truncate again. -/
def strip_config_or_extra_examples (s : List Nat) : Option (List Nat) :=
  match truncAtMarker configMarker s with
  | none => none
  | some t => truncAtMarker detailsMarker t

/-- Follows the words of claim C8 (not the source): truncate at whichever
marker occurs earlier in the text, dropping one trailing boundary byte and
everything from the marker on; unchanged when neither marker occurs. -/
def stripAtEarliestMarkerClaim (s : List Nat) : Option (List Nat) :=
  match listFind configMarker s, listFind detailsMarker s with
  | none, none => some s
  | some c, none => if c = 0 then none else listTruncate s (c - 1)
  | none, some d => if d = 0 then none else listTruncate s (d - 1)
  | some c, some d => if min c d = 0 then none else listTruncate s (min c d - 1)

/-! ### Explanation runner (`src/cli/rslint/explain.rs:17-131`) -/

/-- `WEBSITE_DOCS_BASE` (`src/cli/rslint/explain.rs:15`). -/
def websiteDocsBase : String := "https://rdambrosio016.github.io/RSLint/rules"

/-- The `ansi_term` rendering of `Green.paint("Docs")`. -/
def greenDocsLabel : String := "\x1B[32mDocs\x1B[0m"

/-- The line appended by `append_link_to_docs`:
`format!("{}: {}\n", Green.paint("Docs"), link)` where
`link = format!("{}/{}/{}.md", WEBSITE_DOCS_BASE, group, name)`. -/
def linkLine (group name : String) : String :=
  greenDocsLabel ++ ": " ++ websiteDocsBase ++ "/" ++ group ++ "/" ++ name ++ ".md" ++ "\n"

/-- `ExplanationRunner` (`src/cli/rslint/explain.rs:19-22`).  Note the field
the source calls `rules` carries the fetched document texts, while
`rule_names` carries every requested name. -/
structure ExplanationRunner where
  rules : List String
  rule_names : List String
  deriving DecidableEq

/-- The fetch loop of `ExplanationRunner::new`
(`src/cli/rslint/explain.rs:27-46`), parametric in the outcome of
`fetch_doc_file` for each requested name: a fetched document is pushed onto
the docs list, a failed name is reported as a recoverable error (second
component, in order) and skipped; the loop always runs to completion. -/
def fetchLoop (fetch : String → Option String) : List String → List String × List String
  | [] => ([], [])
  | n :: rest =>
      let p := fetchLoop fetch rest
      match fetch n with
      | some doc => (doc :: p.1, p.2)
      | none => (p.1, n :: p.2)

/-- `ExplanationRunner::new`: the runner keeps the fetched docs and all the
requested names; the reported errors are returned alongside. -/
def ExplanationRunner.new (fetch : String → Option String) (names : List String) :
    ExplanationRunner × List String :=
  (⟨(fetchLoop fetch names).1, names⟩, (fetchLoop fetch names).2)

/-- `append_link_to_docs` (`src/cli/rslint/explain.rs:103-113`), parametric in
`rslint_core::get_rule_by_name` (name to rule group): the docs list is zipped
with the full `rule_names` list and each doc gets a link line built from the
name it happens to be zipped with; `get_rule_by_name(name).unwrap()` panics
(`none`) when that name is unresolvable. -/
def append_link_to_docs (getRule : String → Option String)
    (r : ExplanationRunner) : Option ExplanationRunner :=
  match (r.rules.zip r.rule_names).mapM
      (fun p => (getRule p.2).map (fun g => p.1 ++ linkLine g p.2)) with
  | none => none
  | some docs => some ⟨docs, r.rule_names⟩

/-- A fetch oracle for the explain scenarios: only `no-undef` resolves and its
docs fetch succeeds; every other name takes the normal absent path. -/
def bogusFetch : String → Option String :=
  fun n => if n = "no-undef" then some "NOUNDEFDOC" else none

/-- A rule-registry oracle matching `bogusFetch`: only `no-undef` is a known
rule (group `errors`). -/
def bogusGetRule : String → Option String :=
  fun n => if n = "no-undef" then some "errors" else none

/-- A rule-registry oracle in which `for-direction` is a known rule (group
`control-flow`) whose docs fetch nevertheless failed, next to `no-undef`. -/
def flakyGetRule : String → Option String :=
  fun n =>
    if n = "no-undef" then some "errors"
    else if n = "for-direction" then some "control-flow" else none

/-! ### Helper lemmas -/

lemma remapOne_error_eq (d : Diagnostic) : remapOne RuleLevel.Error d = d := by
  cases d with
  | mk s p => cases s <;> rfl

lemma remapOne_warning_eq (d : Diagnostic) :
    remapOne RuleLevel.Warning d =
      { d with severity :=
          if d.severity = Severity.Error ∨ d.severity = Severity.Bug then Severity.Warning
          else d.severity } := by
  cases d with
  | mk s p => cases s <;> rfl

lemma outcomeMax_assoc :
    ∀ a b c : Outcome, outcomeMax (outcomeMax a b) c = outcomeMax a (outcomeMax b c) := by
  decide

lemma outcomeMax_success_left : ∀ b : Outcome, outcomeMax Outcome.Success b = b := by
  decide

lemma foldl_outcomeMax_eq (l : List Outcome) :
    ∀ a : Outcome, l.foldl outcomeMax a = outcomeMax a (Outcome.merge l) := by
  induction l with
  | nil => intro a; cases a <;> rfl
  | cons b t ih =>
      intro a
      show t.foldl outcomeMax (outcomeMax a b) = outcomeMax a (Outcome.merge (b :: t))
      rw [ih (outcomeMax a b)]
      have hbt : Outcome.merge (b :: t) = t.foldl outcomeMax (outcomeMax Outcome.Success b) := rfl
      rw [hbt, ih (outcomeMax Outcome.Success b), outcomeMax_success_left b, outcomeMax_assoc]

lemma processResults_append_error (rs₁ rs₂ : List (Except Diagnostic LintResult))
    (d : Diagnostic) :
    (processResults (rs₁ ++ Except.error d :: rs₂)).1
        = (processResults rs₁).1 ++ d :: (processResults rs₂).1
    ∧ (processResults (rs₁ ++ Except.error d :: rs₂)).2 = (processResults (rs₁ ++ rs₂)).2 := by
  induction rs₁ with
  | nil => exact ⟨rfl, rfl⟩
  | cons x t ih =>
      cases x with
      | error e => exact ⟨by simp [processResults, ih.1], by simp [processResults, ih.2]⟩
      | ok r => exact ⟨by simp [processResults, ih.1], by simp [processResults, ih.2]⟩

lemma findLoc_eq_none (msg : List Char) :
    findLoc msg = none ↔ ∀ j, atLineHere (msg.drop j) = false := by
  induction msg with
  | nil =>
      constructor
      · intro _ j
        rw [List.drop_nil]
        decide
      · intro _
        rfl
  | cons c rest ih =>
      cases hc : atLineHere (c :: rest) with
      | true =>
          constructor
          · intro h
            simp [findLoc, hc] at h
          · intro hall
            have := hall 0
            rw [List.drop_zero, hc] at this
            exact absurd this (by simp)
      | false =>
          constructor
          · intro h j
            simp only [findLoc] at h
            rw [if_neg (by rw [hc]; simp)] at h
            cases j with
            | zero => rw [List.drop_zero]; exact hc
            | succ k =>
                rw [List.drop_succ_cons]
                refine (ih.mp ?_) k
                cases hf : findLoc rest with
                | none => rfl
                | some m => rw [hf] at h; exact absurd h (by simp)
          · intro hall
            show (if atLineHere (c :: rest) = true then some 0 else (findLoc rest).map (· + 1))
              = none
            rw [if_neg (by rw [hc]; simp)]
            have : findLoc rest = none := ih.mpr (fun j => by
              have := hall (j + 1)
              rwa [List.drop_succ_cons] at this)
            rw [this]
            rfl

lemma findLoc_first (msg : List Char) :
    ∀ i, findLoc msg = some i →
      atLineHere (msg.drop i) = true ∧ ∀ j, j < i → atLineHere (msg.drop j) = false := by
  induction msg with
  | nil => intro i h; exact absurd h (by simp [findLoc])
  | cons c rest ih =>
      intro i h
      cases hc : atLineHere (c :: rest) with
      | true =>
          have : i = 0 := by
            simp [findLoc, hc] at h
            omega
          subst this
          exact ⟨by rw [List.drop_zero]; exact hc, fun j hj => absurd hj (by omega)⟩
      | false =>
          have h' : (findLoc rest).map (· + 1) = some i := by
            simp only [findLoc] at h
            rwa [if_neg (by rw [hc]; simp)] at h
          obtain ⟨k, hk, hik⟩ := Option.map_eq_some'.mp h'
          obtain ⟨hk1, hk2⟩ := ih k hk
          subst hik
          constructor
          · rwa [List.drop_succ_cons]
          · intro j hj
            cases j with
            | zero => rw [List.drop_zero]; exact hc
            | succ m =>
                rw [List.drop_succ_cons]
                exact hk2 m (by omega)

lemma findDym_first (m : List Char) :
    ∀ i cap, findDym m = some (i, cap) →
      dymHere (m.drop i) = some cap ∧ ∀ j, j < i → dymHere (m.drop j) = none := by
  induction m with
  | nil => intro i cap h; exact absurd h (by simp [findDym])
  | cons c rest ih =>
      intro i cap h
      cases hd : dymHere (c :: rest) with
      | some cap0 =>
          simp only [findDym, hd] at h
          have hi : (0, cap0) = (i, cap) := by simpa using h
          rw [Prod.mk.injEq] at hi
          obtain ⟨hi0, hcap⟩ := hi
          subst hi0
          subst hcap
          exact ⟨by rw [List.drop_zero]; exact hd, fun j hj => absurd hj (by omega)⟩
      | none =>
          simp only [findDym, hd] at h
          obtain ⟨p, hp, hfp⟩ := Option.map_eq_some'.mp h
          rw [Prod.mk.injEq] at hfp
          obtain ⟨hi, hcap⟩ := hfp
          subst hi
          subst hcap
          obtain ⟨h1, h2⟩ := ih p.1 p.2 hp
          constructor
          · rwa [List.drop_succ_cons]
          · intro j hj
            cases j with
            | zero => rw [List.drop_zero]; exact hd
            | succ k =>
                rw [List.drop_succ_cons]
                exact h2 k (by omega)

lemma isPre_length : ∀ {p l : List Nat}, isPre p l = true → p.length ≤ l.length := by
  intro p
  induction p with
  | nil => intro l _; exact Nat.zero_le _
  | cons a as ih =>
      intro l h
      cases l with
      | nil => exact absurd h (by simp [isPre])
      | cons b bs =>
          simp only [isPre, Bool.and_eq_true] at h
          simpa using Nat.succ_le_succ (ih h.2)

lemma isPre_of_take : ∀ {p : List Nat} {l : List Nat} {m : Nat},
    isPre p (l.take m) = true → isPre p l = true ∧ p.length ≤ m := by
  intro p
  induction p with
  | nil => intro l m _; exact ⟨rfl, Nat.zero_le _⟩
  | cons a as ih =>
      intro l m h
      cases m with
      | zero => rw [List.take_zero] at h; exact absurd h (by simp [isPre])
      | succ k =>
          cases l with
          | nil => rw [List.take_nil] at h; exact absurd h (by simp [isPre])
          | cons b bs =>
              rw [List.take_succ_cons] at h
              simp only [isPre, Bool.and_eq_true] at h
              obtain ⟨h1, h2⟩ := ih h.2
              exact ⟨by simp [isPre, h.1, h1], by simpa using Nat.succ_le_succ h2⟩

lemma isPre_take_of : ∀ {p : List Nat} {l : List Nat} {m : Nat},
    isPre p l = true → p.length ≤ m → isPre p (l.take m) = true := by
  intro p
  induction p with
  | nil => intro l m _ _; rfl
  | cons a as ih =>
      intro l m h hm
      cases l with
      | nil => exact absurd h (by simp [isPre])
      | cons b bs =>
          cases m with
          | zero => simp at hm
          | succ k =>
              rw [List.take_succ_cons]
              simp only [isPre, Bool.and_eq_true] at h ⊢
              exact ⟨h.1, ih h.2 (by simpa using hm)⟩

lemma take_then_drop (l : List Nat) : ∀ n j, (l.take n).drop j = (l.drop j).take (n - j) := by
  induction l with
  | nil => intro n j; simp
  | cons a t ih =>
      intro n j
      cases n with
      | zero => simp
      | succ m =>
          cases j with
          | zero => simp
          | succ k =>
              simp only [List.take_succ_cons, List.drop_succ_cons]
              rw [ih m k]
              congr 1
              omega

lemma occ_in_take {p l : List Nat} {n j : Nat} (hp : p ≠ [])
    (h : isPre p ((l.take n).drop j) = true) :
    isPre p (l.drop j) = true ∧ j + p.length ≤ n := by
  rw [take_then_drop] at h
  obtain ⟨h1, h2⟩ := isPre_of_take h
  have hlen : 0 < p.length := List.length_pos.mpr hp
  exact ⟨h1, by omega⟩

lemma occ_into_take {p l : List Nat} {n j : Nat}
    (h1 : isPre p (l.drop j) = true) (h2 : j + p.length ≤ n) :
    isPre p ((l.take n).drop j) = true := by
  rw [take_then_drop]
  exact isPre_take_of h1 (by omega)

lemma no_occ_take {pat l : List Nat} {n : Nat} (hp : pat ≠ [])
    (hmin : ∀ j, j + pat.length ≤ n → isPre pat (l.drop j) = false) :
    ∀ j, isPre pat ((l.take n).drop j) = false := by
  intro j
  cases hq : isPre pat ((l.take n).drop j) with
  | false => rfl
  | true =>
      obtain ⟨h1, h2⟩ := occ_in_take hp hq
      have hf := hmin j h2
      rw [h1] at hf
      exact absurd hf (by simp)

lemma listFind_eq_none {pat : List Nat} (hp : pat ≠ []) (s : List Nat) :
    listFind pat s = none ↔ ∀ j, isPre pat (s.drop j) = false := by
  induction s with
  | nil =>
      cases pat with
      | nil => exact absurd rfl hp
      | cons a as =>
          constructor
          · intro _ j
            rw [List.drop_nil]
            simp [isPre]
          · intro _
            simp [listFind]
  | cons b rest ih =>
      cases hc : isPre pat (b :: rest) with
      | true =>
          constructor
          · intro h
            simp [listFind, hc] at h
          · intro hall
            have := hall 0
            rw [List.drop_zero, hc] at this
            exact absurd this (by simp)
      | false =>
          constructor
          · intro h j
            simp only [listFind] at h
            rw [if_neg (by rw [hc]; simp)] at h
            cases j with
            | zero => rw [List.drop_zero]; exact hc
            | succ k =>
                rw [List.drop_succ_cons]
                refine (ih.mp ?_) k
                cases hf : listFind pat rest with
                | none => rfl
                | some m => rw [hf] at h; exact absurd h (by simp)
          · intro hall
            simp only [listFind]
            rw [if_neg (by rw [hc]; simp)]
            have : listFind pat rest = none := ih.mpr (fun j => by
              have := hall (j + 1)
              rwa [List.drop_succ_cons] at this)
            rw [this]
            rfl

lemma listFind_first {pat : List Nat} (hp : pat ≠ []) (s : List Nat) :
    ∀ i, listFind pat s = some i →
      isPre pat (s.drop i) = true ∧ ∀ j, j < i → isPre pat (s.drop j) = false := by
  induction s with
  | nil =>
      intro i h
      cases pat with
      | nil => exact absurd rfl hp
      | cons a as => exact absurd h (by simp [listFind])
  | cons b rest ih =>
      intro i h
      cases hc : isPre pat (b :: rest) with
      | true =>
          have : i = 0 := by
            simp [listFind, hc] at h
            omega
          subst this
          exact ⟨by rw [List.drop_zero]; exact hc, fun j hj => absurd hj (by omega)⟩
      | false =>
          have h' : (listFind pat rest).map (· + 1) = some i := by
            simp only [listFind] at h
            rwa [if_neg (by rw [hc]; simp)] at h
          obtain ⟨k, hk, hik⟩ := Option.map_eq_some'.mp h'
          obtain ⟨hk1, hk2⟩ := ih k hk
          subst hik
          constructor
          · rwa [List.drop_succ_cons]
          · intro j hj
            cases j with
            | zero => rw [List.drop_zero]; exact hc
            | succ m =>
                rw [List.drop_succ_cons]
                exact hk2 m (by omega)

lemma listFind_eq_some_of {pat : List Nat} (hp : pat ≠ []) {s : List Nat} :
    ∀ {i : Nat}, isPre pat (s.drop i) = true →
      (∀ j, j < i → isPre pat (s.drop j) = false) → listFind pat s = some i := by
  induction s with
  | nil =>
      intro i hocc _
      rw [List.drop_nil] at hocc
      cases pat with
      | nil => exact absurd rfl hp
      | cons a as => exact absurd hocc (by simp [isPre])
  | cons b rest ih =>
      intro i hocc hmin
      cases i with
      | zero =>
          rw [List.drop_zero] at hocc
          simp [listFind, hocc]
      | succ k =>
          have h0 : isPre pat ((b :: rest).drop 0) = false := hmin 0 (by omega)
          rw [List.drop_zero] at h0
          have hr : listFind pat rest = some k := by
            refine ih ?_ ?_
            · rwa [List.drop_succ_cons] at hocc
            · intro j hj
              have := hmin (j + 1) (by omega)
              rwa [List.drop_succ_cons] at this
          simp [listFind, h0, hr]

lemma listFind_take_of {pat l : List Nat} {n idx : Nat} (hp : pat ≠ [])
    (hf : listFind pat l = some idx) (hfit : idx + pat.length ≤ n) :
    listFind pat (l.take n) = some idx := by
  obtain ⟨hocc, hmin⟩ := listFind_first hp l idx hf
  refine listFind_eq_some_of hp (occ_into_take hocc hfit) ?_
  intro j hj
  cases hq : isPre pat ((l.take n).drop j) with
  | false => rfl
  | true =>
      obtain ⟨h1, _⟩ := occ_in_take hp hq
      have hfj := hmin j hj
      rw [h1] at hfj
      exact absurd hfj (by simp)

lemma getElem?_take_lt (l : List Nat) : ∀ n i, i < n → (l.take n)[i]? = l[i]? := by
  induction l with
  | nil => intro n i _; simp
  | cons a t ih =>
      intro n i h
      cases n with
      | zero => omega
      | succ m =>
          cases i with
          | zero => simp
          | succ k =>
              simp only [List.take_succ_cons, List.getElem?_cons_succ]
              exact ih m k (by omega)

lemma isCharBoundary_take {s : List Nat} {n i : Nat} (hin : i < n) (hn : n ≤ s.length)
    (hb : isCharBoundary s i = true) : isCharBoundary (s.take n) i = true := by
  have hlen : (s.take n).length = n := by rw [List.length_take]; omega
  unfold isCharBoundary at hb ⊢
  rw [if_neg (by omega)]
  rw [getElem?_take_lt s n i hin]
  rwa [if_neg (by omega)] at hb

lemma truncAt_not_found {pat : List Nat} (hp : pat ≠ []) {s : List Nat}
    (hnone : ∀ j, isPre pat (s.drop j) = false) :
    truncAtMarker pat s = some s := by
  unfold truncAtMarker
  rw [(listFind_eq_none hp s).mpr hnone]

lemma truncAt_found {pat s : List Nat} {idx : Nat} (hp : pat ≠ [])
    (hf : listFind pat s = some idx) (h0 : idx ≠ 0)
    (hb : isCharBoundary s (idx - 1) = true) :
    truncAtMarker pat s = some (s.take (idx - 1)) := by
  have hocc := (listFind_first hp s idx hf).1
  have hplen : 0 < pat.length := List.length_pos.mpr hp
  have hdlen : pat.length ≤ s.length - idx := by
    have := isPre_length hocc
    rwa [List.length_drop] at this
  simp only [truncAtMarker, hf, if_neg h0]
  unfold listTruncate
  rw [if_pos (by omega : idx - 1 ≤ s.length), hb]
  simp

lemma truncAt_some_cases {pat : List Nat} (hp : pat ≠ []) {s t₁ : List Nat}
    (h : truncAtMarker pat s = some t₁) :
    ((∀ j, isPre pat (s.drop j) = false) ∧ t₁ = s)
    ∨ (∃ idx, idx ≠ 0 ∧ isPre pat (s.drop idx) = true
        ∧ (∀ j, j < idx → isPre pat (s.drop j) = false) ∧ t₁ = s.take (idx - 1)) := by
  cases hf : listFind pat s with
  | none =>
      simp only [truncAtMarker, hf] at h
      left
      refine ⟨(listFind_eq_none hp s).mp hf, ?_⟩
      simpa using h.symm
  | some idx =>
      simp only [truncAtMarker, hf] at h
      by_cases h0 : idx = 0
      · rw [if_pos h0] at h; exact absurd h (by simp)
      · rw [if_neg h0] at h
        obtain ⟨hocc, hmin⟩ := listFind_first hp s idx hf
        have hplen : 0 < pat.length := List.length_pos.mpr hp
        have hdlen : pat.length ≤ s.length - idx := by
          have := isPre_length hocc
          rwa [List.length_drop] at this
        unfold listTruncate at h
        rw [if_pos (by omega : idx - 1 ≤ s.length)] at h
        cases hb : isCharBoundary s (idx - 1) with
        | false => rw [hb] at h; exact absurd h (by simp)
        | true =>
            rw [hb] at h
            simp only [if_pos rfl] at h
            right
            exact ⟨idx, h0, hocc, hmin, by simpa using h.symm⟩

lemma strip_result_markers_gone {s t : List Nat}
    (h : strip_config_or_extra_examples s = some t) :
    (∀ j, isPre configMarker (t.drop j) = false)
    ∧ (∀ j, isPre detailsMarker (t.drop j) = false) := by
  have hcne : configMarker ≠ [] := by decide
  have hdne : detailsMarker ≠ [] := by decide
  have hclen : configMarker.length = 8 := rfl
  have hdlen : detailsMarker.length = 9 := rfl
  unfold strip_config_or_extra_examples at h
  cases h1 : truncAtMarker configMarker s with
  | none => rw [h1] at h; exact absurd h (by simp)
  | some t₁ =>
      rw [h1] at h
      have hc₁ : ∀ j, isPre configMarker (t₁.drop j) = false := by
        rcases truncAt_some_cases hcne h1 with ⟨hnone, rfl⟩ | ⟨c, hc0, _, hmin, rfl⟩
        · exact hnone
        · exact no_occ_take hcne (fun j hj => hmin j (by omega))
      rcases truncAt_some_cases hdne h with ⟨hnone, rfl⟩ | ⟨d, hd0, _, hmin', rfl⟩
      · exact ⟨hc₁, hnone⟩
      · constructor
        · exact no_occ_take hcne (fun j _ => hc₁ j)
        · exact no_occ_take hdne (fun j hj => hmin' j (by omega))

lemma strip_idem {s t : List Nat} (h : strip_config_or_extra_examples s = some t) :
    strip_config_or_extra_examples t = some t := by
  obtain ⟨hc, hd⟩ := strip_result_markers_gone h
  have hcne : configMarker ≠ [] := by decide
  have hdne : detailsMarker ≠ [] := by decide
  simp only [strip_config_or_extra_examples, truncAt_not_found hcne hc]
  exact truncAt_not_found hdne hd

/-! ### Claim theorems -/

/-- Claim C1.  For every sequence of diagnostics and configured level: with
level Warning, every Error/Bug severity becomes Warning and Warning/Note
severities are untouched; with level Error nothing changes; in all cases the
order and every field other than the severity are unchanged (stated
position-wise through the indexed lookup). -/
theorem c1_severity_remap (ds : List Diagnostic) :
    remap_diagnostics_to_level ds RuleLevel.Error = ds
    ∧ (remap_diagnostics_to_level ds RuleLevel.Warning).length = ds.length
    ∧ ∀ i : Nat,
        (remap_diagnostics_to_level ds RuleLevel.Warning)[i]? =
          (ds[i]?).map (fun d =>
            { d with severity :=
                if d.severity = Severity.Error ∨ d.severity = Severity.Bug then Severity.Warning
                else d.severity }) := by
  refine ⟨?_, ?_, ?_⟩
  · show ds.map (remapOne RuleLevel.Error) = ds
    induction ds with
    | nil => rfl
    | cons d t ih => simp [remapOne_error_eq d, ih]
  · simp [remap_diagnostics_to_level]
  · intro i
    show (ds.map (remapOne RuleLevel.Warning))[i]? = _
    rw [List.getElem?_map]
    cases ds[i]? with
    | none => rfl
    | some d => simp [remapOne_warning_eq d]

/-- Claim C7.  The outcome merge is associative and commutative, Failure is
absorbing, Warning·Success = Warning, the singleton Success merges to Success,
and the empty collection merges to Success; moreover the list-level merge
splits over append, making the aggregate order-independent. -/
theorem c7_outcome_merge :
    (∀ a b c : Outcome, outcomeMax (outcomeMax a b) c = outcomeMax a (outcomeMax b c))
    ∧ (∀ a b : Outcome, outcomeMax a b = outcomeMax b a)
    ∧ (∀ a : Outcome,
        outcomeMax Outcome.Failure a = Outcome.Failure
        ∧ outcomeMax a Outcome.Failure = Outcome.Failure)
    ∧ outcomeMax Outcome.Warning Outcome.Success = Outcome.Warning
    ∧ Outcome.merge [Outcome.Success] = Outcome.Success
    ∧ Outcome.merge [] = Outcome.Success
    ∧ (∀ l₁ l₂ : List Outcome,
        Outcome.merge (l₁ ++ l₂) = outcomeMax (Outcome.merge l₁) (Outcome.merge l₂)) := by
  refine ⟨outcomeMax_assoc, by decide, by decide, rfl, rfl, rfl, ?_⟩
  intro l₁ l₂
  show (l₁ ++ l₂).foldl outcomeMax Outcome.Success = _
  rw [List.foldl_append]
  exact foldl_outcomeMax_eq l₂ (Outcome.merge l₁)

/-- Claim C6.  A fatal per-file engine failure is rendered (collected into the
fatal-diagnostics stream) exactly where it occurred, is excluded from the
surviving results, and does not disturb the processing of the other files;
in particular with one fatal failure and two clean successes the aggregation
counts exactly the two successes and the overall outcome is Success. -/
theorem c6_fatal_isolated (rs₁ rs₂ : List (Except Diagnostic LintResult)) (d : Diagnostic)
    (r1 r2 : LintResult) (h1 : r1.outcome = Outcome.Success)
    (h2 : r2.outcome = Outcome.Success) :
    (processResults (rs₁ ++ Except.error d :: rs₂)).1
        = (processResults rs₁).1 ++ d :: (processResults rs₂).1
    ∧ (processResults (rs₁ ++ Except.error d :: rs₂)).2 = (processResults (rs₁ ++ rs₂)).2
    ∧ processResults [Except.ok r1, Except.error d, Except.ok r2] = ([d], [r1, r2])
    ∧ countOutcome Outcome.Success [r1, r2] = 2
    ∧ countOutcome Outcome.Failure [r1, r2] = 0
    ∧ countOutcome Outcome.Warning [r1, r2] = 0
    ∧ overallOutcome [r1, r2] = Outcome.Success := by
  obtain ⟨hF, hS⟩ := processResults_append_error rs₁ rs₂ d
  refine ⟨hF, hS, rfl, ?_, ?_, ?_, ?_⟩
  · simp [countOutcome, h1, h2]
  · simp [countOutcome, h1, h2]
  · simp [countOutcome, h1, h2]
  · simp [overallOutcome, Outcome.merge, h1, h2, outcomeMax]

/-- Witness for C6 at concrete inputs: two clean results, one fatal Bug
diagnostic in the middle. -/
theorem c6_witness :
    LintResult.outcome ⟨1, []⟩ = Outcome.Success
    ∧ processResults
        [Except.ok ⟨1, []⟩, Except.error ⟨Severity.Bug, "fatal parse error"⟩, Except.ok ⟨2, []⟩]
        = ([⟨Severity.Bug, "fatal parse error"⟩], [⟨1, []⟩, ⟨2, []⟩])
    ∧ countOutcome Outcome.Success [⟨1, []⟩, ⟨2, []⟩] = 2
    ∧ overallOutcome [⟨1, []⟩, ⟨2, []⟩] = Outcome.Success := by
  have h := c6_fatal_isolated [] [] ⟨Severity.Bug, "fatal parse error"⟩ ⟨1, []⟩ ⟨2, []⟩
    (by decide) (by decide)
  exact ⟨by decide, h.2.2.1, h.2.2.2.1, h.2.2.2.2.2.2⟩

/-- Claim C9.  The entry guard of `lint_files` never reaches the
`todo!("stdin linting")` placeholder: an empty argument list panics on
`args[0]` (index out of bounds) before the comparison, and the single dash
argument makes the conjunction false, so `"-"` silently proceeds into
ordinary path handling. -/
theorem c9_entry_guard :
    lint_files_entry [] = EntryStep.crashIndex
    ∧ lint_files_entry ["-"] = EntryStep.proceed ["-"]
    ∧ ∀ args : List String, lint_files_entry args ≠ EntryStep.stdinPlaceholder := by
  refine ⟨rfl, rfl, ?_⟩
  intro args
  cases args with
  | nil => simp [lint_files_entry]
  | cons a as => simp [lint_files_entry]

/-- Counterexample for C2.  The claim asserts that every configuration-loading
failure is reported as one diagnostic without crashing, and that errors of a
shape without the location/suggestion fragments are reported as-is.  On a
config error whose rendered message lacks an `at line N` marker the branch
instead panics on `location_regex.find(..).unwrap()`: the run crashes and no
diagnostic is reported. -/
theorem c2_counterexample :
    configPhase (ConfigLoad.failed ("expected a value".toList)) = ConfigPhase.crashed := by
  decide

/-- Claim C2 (amended).  For every configuration-loading failure whose message
contains an `at line N` marker, the run reports exactly one diagnostic and
returns before any file is linted, without crashing; the message is truncated
at the leftmost such marker; when the truncated message contains a
`did you mean` fragment, the leftmost fragment is removed from the message
and its suggestion re-attached as a separate note (`dymNote`), and when it
does not, the truncation is reported with no note.  A failure whose message
lacks the marker panics instead of being reported as-is.  Successful loading
proceeds into linting. -/
theorem c2_config_surgery (msg : List Char) :
    ((∃ i, atLineHere (msg.drop i) = true) →
        ∃ m help, configPhase (ConfigLoad.failed msg) = ConfigPhase.reported m help
          ∧ m.length ≤ msg.length)
    ∧ ((∀ i, atLineHere (msg.drop i) = false) →
        configPhase (ConfigLoad.failed msg) = ConfigPhase.crashed)
    ∧ (∀ loc, findLoc msg = some loc → findDym (msg.take loc) = none →
        configPhase (ConfigLoad.failed msg) = ConfigPhase.reported (msg.take loc) none
          ∧ atLineHere (msg.drop loc) = true
          ∧ ∀ j, j < loc → atLineHere (msg.drop j) = false)
    ∧ (∀ loc i cap, findLoc msg = some loc → findDym (msg.take loc) = some (i, cap) →
        configPhase (ConfigLoad.failed msg)
            = ConfigPhase.reported
                ((msg.take loc).take i ++ (msg.take loc).drop (i + (cap.length + 18)))
                (some (dymNote cap))
          ∧ dymHere ((msg.take loc).drop i) = some cap
          ∧ (∀ j, j < i → dymHere ((msg.take loc).drop j) = none)
          ∧ atLineHere (msg.drop loc) = true
          ∧ ∀ j, j < loc → atLineHere (msg.drop j) = false)
    ∧ configPhase ConfigLoad.parsed = ConfigPhase.proceed := by
  refine ⟨?_, ?_, ?_, ?_, rfl⟩
  · intro hex
    cases hf : findLoc msg with
    | none =>
        obtain ⟨i, hi⟩ := hex
        have := (findLoc_eq_none msg).mp hf i
        rw [this] at hi
        exact absurd hi (by simp)
    | some loc =>
        cases hd : findDym (msg.take loc) with
        | none =>
            refine ⟨msg.take loc, none, ?_, ?_⟩
            · simp [configPhase, processConfigError, hf, hd]
            · rw [List.length_take]; omega
        | some p =>
            obtain ⟨i, cap⟩ := p
            refine ⟨(msg.take loc).take i ++ (msg.take loc).drop (i + (cap.length + 18)),
              some (dymNote cap), ?_, ?_⟩
            · simp [configPhase, processConfigError, hf, hd]
            · rw [List.length_append, List.length_take, List.length_drop, List.length_take]
              omega
  · intro hall
    have hf : findLoc msg = none := (findLoc_eq_none msg).mpr hall
    simp [configPhase, processConfigError, hf]
  · intro loc hf hd
    obtain ⟨h1, h2⟩ := findLoc_first msg loc hf
    exact ⟨by simp [configPhase, processConfigError, hf, hd], h1, h2⟩
  · intro loc i cap hf hd
    obtain ⟨h1, h2⟩ := findLoc_first msg loc hf
    obtain ⟨h3, h4⟩ := findDym_first (msg.take loc) i cap hd
    exact ⟨by simp [configPhase, processConfigError, hf, hd], h3, h4, h1, h2⟩

/-- Witness for C2 at concrete inputs: a marker-bearing message without the
fragment is reported truncated; a message carrying both the marker and a
`did you mean` fragment is reported with the fragment removed and the
suggestion re-attached as the note; a marker-less message crashes. -/
theorem c2_witness :
    (∃ m help, configPhase (ConfigLoad.failed ("invalid type at line 1".toList))
        = ConfigPhase.reported m help)
    ∧ configPhase
        (ConfigLoad.failed ("invalid type at line 1".toList))
        = ConfigPhase.reported ("invalid type ".toList) none
    ∧ configPhase
        (ConfigLoad.failed
          ("unknown rule. did you mean ".toList ++ [quoteC] ++ "ban".toList ++ [quoteC]
            ++ "? at line 7".toList))
        = ConfigPhase.reported ("unknown rule ".toList) (some (dymNote ("ban".toList)))
    ∧ configPhase (ConfigLoad.failed ("boom".toList)) = ConfigPhase.crashed := by
  refine ⟨?_, ?_, ?_, ?_⟩
  · obtain ⟨m, help, hm, -⟩ := (c2_config_surgery ("invalid type at line 1".toList)).1
      ⟨13, by decide⟩
    exact ⟨m, help, hm⟩
  · exact ((c2_config_surgery ("invalid type at line 1".toList)).2.2.1 13
      (by decide) (by decide)).1
  · have happ := (c2_config_surgery
      ("unknown rule. did you mean ".toList ++ [quoteC] ++ "ban".toList ++ [quoteC]
        ++ "? at line 7".toList)).2.2.2.1 34 12 ("ban".toList) (by decide) (by decide)
    exact happ.1.trans (by decide)
  · exact (c2_config_surgery ("boom".toList)).2.1 ((findLoc_eq_none _).mp (by decide))

/-- Claim C5.  Stage 1 removes exactly the first 70 bytes of every document;
a document shorter than 70 bytes, or one whose byte 70 is not a char
boundary, makes the stage panic with an out-of-range failure instead of
returning a document (the length is never validated before slicing), and a
single such document fails the whole stage. -/
theorem c5_strip_prelude (s : List Nat) (rest : List (List Nat)) :
    (s.length < 70 → strip_rule_prelude s = none)
    ∧ (isCharBoundary s 70 = false → strip_rule_prelude s = none)
    ∧ (isCharBoundary s 70 = true →
        strip_rule_prelude s = some (s.drop 70)
          ∧ (s.take 70).length = 70 ∧ s.take 70 ++ s.drop 70 = s)
    ∧ (s.length < 70 → strip_rule_preludes (s :: rest) = none) := by
  have short_none : s.length < 70 → strip_rule_prelude s = none := by
    intro h
    have hb : isCharBoundary s 70 = false := by
      unfold isCharBoundary
      rw [if_neg (by omega), List.getElem?_eq_none (by omega)]
    simp [strip_rule_prelude, hb]
  refine ⟨short_none, ?_, ?_, ?_⟩
  · intro hb
    simp [strip_rule_prelude, hb]
  · intro hb
    have h70 : 70 ≤ s.length := by
      unfold isCharBoundary at hb
      by_cases he : (70 : Nat) = s.length
      · omega
      · rw [if_neg he] at hb
        cases hg : s[(70 : Nat)]? with
        | none => rw [hg] at hb; exact absurd hb (by simp)
        | some b =>
            have hlt : 70 < s.length := by
              have := List.getElem?_eq_some.mp hg
              exact this.1
            omega
    refine ⟨by simp [strip_rule_prelude, hb], ?_, List.take_append_drop 70 s⟩
    rw [List.length_take]
    omega
  · intro h
    have hnone := short_none h
    simp [strip_rule_preludes, List.mapM.loop, hnone]

/-- Witness for C5 at concrete inputs: a 71-byte ASCII document loses exactly
its first 70 bytes; a 2-byte document panics; a document whose byte 70 sits
inside a two-byte UTF-8 character panics. -/
theorem c5_witness :
    strip_rule_prelude (List.replicate 70 97 ++ [98])
        = some ((List.replicate 70 97 ++ [98]).drop 70)
    ∧ strip_rule_prelude [104, 105] = none
    ∧ strip_rule_prelude (List.replicate 69 97 ++ [200, 128]) = none :=
  ⟨((c5_strip_prelude (List.replicate 70 97 ++ [98]) []).2.2.1 (by decide)).1,
   (c5_strip_prelude [104, 105] []).1 (by decide),
   (c5_strip_prelude (List.replicate 69 97 ++ [200, 128]) []).2.1 (by decide)⟩

/-- Counterexample for C8.  The claim says stage 2 truncates at whichever
marker occurs first in the text.  On the document `X<details># Config`
(bytes below) the first marker is `<details>` at byte 1, so the claim predicts
truncation to the empty prefix; the code instead truncates at `# Config`
first (to byte 9), the cut swallows the trailing `>` of `<details>`, the
second search finds nothing, and the result keeps `X<details`. -/
theorem c8_counterexample :
    strip_config_or_extra_examples
        [88, 60, 100, 101, 116, 97, 105, 108, 115, 62, 35, 32, 67, 111, 110, 102, 105, 103]
        = some [88, 60, 100, 101, 116, 97, 105, 108, 115]
    ∧ stripAtEarliestMarkerClaim
        [88, 60, 100, 101, 116, 97, 105, 108, 115, 62, 35, 32, 67, 111, 110, 102, 105, 103]
        = some []
    ∧ listFind detailsMarker
        [88, 60, 100, 101, 116, 97, 105, 108, 115, 62, 35, 32, 67, 111, 110, 102, 105, 103]
        = some 1
    ∧ listFind configMarker
        [88, 60, 100, 101, 116, 97, 105, 108, 115, 62, 35, 32, 67, 111, 110, 102, 105, 103]
        = some 10 := by
  decide

/-- Claim C8 (amended).  Stage 2 truncates at the `# Config` marker first
(dropping one trailing boundary byte and everything from the marker on) and
then truncates the result at a surviving `<details>` occurrence; this
coincides with truncation at whichever marker occurs earlier except when an
earlier `<details>` occurrence is itself cut through by the `# Config`
truncation.  A document containing neither marker is returned unchanged, and
on success the stage is idempotent. -/
theorem c8_strip_trailing (s t : List Nat) :
    ((∀ j, isPre configMarker (s.drop j) = false) →
      (∀ j, isPre detailsMarker (s.drop j) = false) →
      strip_config_or_extra_examples s = some s)
    ∧ (strip_config_or_extra_examples s = some t →
        strip_config_or_extra_examples t = some t)
    ∧ (∀ c d, listFind configMarker s = some c → listFind detailsMarker s = some d →
        d + 9 < c → d ≠ 0 →
        isCharBoundary s (c - 1) = true → isCharBoundary s (d - 1) = true →
        strip_config_or_extra_examples s = some (s.take (d - 1)))
    ∧ (∀ c, listFind configMarker s = some c → listFind detailsMarker s = none → c ≠ 0 →
        strip_config_or_extra_examples s = listTruncate s (c - 1))
    ∧ (∀ d, listFind configMarker s = none → listFind detailsMarker s = some d → d ≠ 0 →
        strip_config_or_extra_examples s = listTruncate s (d - 1))
    ∧ (∀ c d, listFind configMarker s = some c → listFind detailsMarker s = some d →
        c < d → c ≠ 0 →
        strip_config_or_extra_examples s = listTruncate s (c - 1)) := by
  have hcne : configMarker ≠ [] := by decide
  have hdne : detailsMarker ≠ [] := by decide
  have hclen : configMarker.length = 8 := rfl
  have hdlen : detailsMarker.length = 9 := rfl
  refine ⟨?_, fun h => strip_idem h, ?_, ?_, ?_, ?_⟩
  · intro hcall hdall
    simp only [strip_config_or_extra_examples, truncAt_not_found hcne hcall]
    exact truncAt_not_found hdne hdall
  · intro c d hc hd hdc hd0 hbC hbD
    have hc0 : c ≠ 0 := by omega
    have hcocc := (listFind_first hcne s c hc).1
    have hcfit : configMarker.length ≤ s.length - c := by
      have := isPre_length hcocc
      rwa [List.length_drop] at this
    have step1 : truncAtMarker configMarker s = some (s.take (c - 1)) :=
      truncAt_found hcne hc hc0 hbC
    have hfind : listFind detailsMarker (s.take (c - 1)) = some d :=
      listFind_take_of hdne hd (by omega)
    have hbD' : isCharBoundary (s.take (c - 1)) (d - 1) = true :=
      isCharBoundary_take (by omega) (by omega) hbD
    have step2 : truncAtMarker detailsMarker (s.take (c - 1))
        = some ((s.take (c - 1)).take (d - 1)) :=
      truncAt_found hdne hfind hd0 hbD'
    simp only [strip_config_or_extra_examples, step1]
    rw [step2, List.take_take, min_eq_left (by omega : d - 1 ≤ c - 1)]
  · intro c hc hdnone hc0
    have hcocc := (listFind_first hcne s c hc).1
    have hcfit : configMarker.length ≤ s.length - c := by
      have := isPre_length hcocc
      rwa [List.length_drop] at this
    cases hb : isCharBoundary s (c - 1) with
    | false =>
        have step1 : truncAtMarker configMarker s = none := by
          simp only [truncAtMarker, hc, if_neg hc0]
          unfold listTruncate
          rw [if_pos (by omega : c - 1 ≤ s.length), hb]
          simp
        simp only [strip_config_or_extra_examples, step1]
        unfold listTruncate
        rw [if_pos (by omega : c - 1 ≤ s.length), hb]
        simp
    | true =>
        have step1 : truncAtMarker configMarker s = some (s.take (c - 1)) :=
          truncAt_found hcne hc hc0 hb
        have hno : ∀ j, isPre detailsMarker ((s.take (c - 1)).drop j) = false :=
          no_occ_take hdne (fun j _ => (listFind_eq_none hdne s).mp hdnone j)
        simp only [strip_config_or_extra_examples, step1]
        rw [truncAt_not_found hdne hno]
        unfold listTruncate
        rw [if_pos (by omega : c - 1 ≤ s.length), hb]
        simp
  · intro d hcnone hd hd0
    have step1 : truncAtMarker configMarker s = some s :=
      truncAt_not_found hcne ((listFind_eq_none hcne s).mp hcnone)
    simp only [strip_config_or_extra_examples, step1]
    simp only [truncAtMarker, hd, if_neg hd0]
  · intro c d hc hd hcd hc0
    have hcocc := (listFind_first hcne s c hc).1
    have hcfit : configMarker.length ≤ s.length - c := by
      have := isPre_length hcocc
      rwa [List.length_drop] at this
    have hdmin := (listFind_first hdne s d hd).2
    cases hb : isCharBoundary s (c - 1) with
    | false =>
        have step1 : truncAtMarker configMarker s = none := by
          simp only [truncAtMarker, hc, if_neg hc0]
          unfold listTruncate
          rw [if_pos (by omega : c - 1 ≤ s.length), hb]
          simp
        simp only [strip_config_or_extra_examples, step1]
        unfold listTruncate
        rw [if_pos (by omega : c - 1 ≤ s.length), hb]
        simp
    | true =>
        have step1 : truncAtMarker configMarker s = some (s.take (c - 1)) :=
          truncAt_found hcne hc hc0 hb
        have hno : ∀ j, isPre detailsMarker ((s.take (c - 1)).drop j) = false :=
          no_occ_take hdne (fun j hj => hdmin j (by omega))
        simp only [strip_config_or_extra_examples, step1]
        rw [truncAt_not_found hdne hno]
        unfold listTruncate
        rw [if_pos (by omega : c - 1 ≤ s.length), hb]
        simp

/-- Witness for C8 at concrete inputs, exercising every case: a marker-free
document is unchanged; idempotence after a real truncation; the
earlier-`<details>` case; `# Config` alone; `<details>` alone; `# Config`
before `<details>`. -/
theorem c8_witness :
    strip_config_or_extra_examples [97] = some [97]
    ∧ strip_config_or_extra_examples [] = some []
    ∧ strip_config_or_extra_examples
        [10, 60, 100, 101, 116, 97, 105, 108, 115, 62, 10, 35, 32, 67, 111, 110, 102, 105, 103]
        = some ([10, 60, 100, 101, 116, 97, 105, 108, 115, 62, 10, 35, 32, 67, 111, 110, 102,
            105, 103].take 0)
    ∧ strip_config_or_extra_examples [10, 35, 32, 67, 111, 110, 102, 105, 103]
        = listTruncate [10, 35, 32, 67, 111, 110, 102, 105, 103] 0
    ∧ strip_config_or_extra_examples [10, 60, 100, 101, 116, 97, 105, 108, 115, 62]
        = listTruncate [10, 60, 100, 101, 116, 97, 105, 108, 115, 62] 0
    ∧ strip_config_or_extra_examples
        [10, 35, 32, 67, 111, 110, 102, 105, 103, 10, 60, 100, 101, 116, 97, 105, 108, 115, 62]
        = listTruncate
            [10, 35, 32, 67, 111, 110, 102, 105, 103, 10, 60, 100, 101, 116, 97, 105, 108,
              115, 62] 0 := by
  refine ⟨?_, ?_, ?_, ?_, ?_, ?_⟩
  · exact (c8_strip_trailing [97] []).1
      ((listFind_eq_none (by decide) [97]).mp (by decide))
      ((listFind_eq_none (by decide) [97]).mp (by decide))
  · exact (c8_strip_trailing [10, 35, 32, 67, 111, 110, 102, 105, 103] []).2.1 (by decide)
  · exact (c8_strip_trailing
      [10, 60, 100, 101, 116, 97, 105, 108, 115, 62, 10, 35, 32, 67, 111, 110, 102, 105, 103]
      []).2.2.1 11 1 (by decide) (by decide) (by decide) (by decide) (by decide) (by decide)
  · exact (c8_strip_trailing [10, 35, 32, 67, 111, 110, 102, 105, 103] []).2.2.2.1 1
      (by decide) (by decide) (by decide)
  · exact (c8_strip_trailing [10, 60, 100, 101, 116, 97, 105, 108, 115, 62] []).2.2.2.2.1 1
      (by decide) (by decide) (by decide)
  · exact (c8_strip_trailing
      [10, 35, 32, 67, 111, 110, 102, 105, 103, 10, 60, 100, 101, 116, 97, 105, 108, 115, 62]
      []).2.2.2.2.2 1 10 (by decide) (by decide) (by decide) (by decide)

/-- Counterexample for C10.  The claim says stage 2 fails on every document in
which a marker occurs at byte position 0.  On `<details># Config` the marker
`<details>` sits at byte 0, yet the `# Config` truncation (to byte 8) runs
first and swallows the trailing `>`, the second search finds nothing, and the
stage succeeds with `<details`. -/
theorem c10_counterexample :
    listFind detailsMarker
        [60, 100, 101, 116, 97, 105, 108, 115, 62, 35, 32, 67, 111, 110, 102, 105, 103]
        = some 0
    ∧ strip_config_or_extra_examples
        [60, 100, 101, 116, 97, 105, 108, 115, 62, 35, 32, 67, 111, 110, 102, 105, 103]
        = some [60, 100, 101, 116, 97, 105, 108, 115] := by
  decide

/-- Claim C10 (amended).  Stage 2 fails by `usize` underflow when `# Config`
first occurs at byte 0; it fails when `<details>` occurs at byte 0 and either
`# Config` is absent or first occurs at byte index 10 or later (so the
occurrence survives the first cut); when `# Config` occurs at index 9 or
earlier the cut removes the byte-0 `<details>` occurrence and the stage can
succeed.  It also fails whenever a computed truncation index (marker position
minus one) falls inside a multi-byte character. -/
theorem c10_stage2_crashes (s : List Nat) :
    (listFind configMarker s = some 0 → strip_config_or_extra_examples s = none)
    ∧ (listFind detailsMarker s = some 0 → listFind configMarker s = none →
        strip_config_or_extra_examples s = none)
    ∧ (∀ c, listFind detailsMarker s = some 0 → listFind configMarker s = some c → 10 ≤ c →
        strip_config_or_extra_examples s = none)
    ∧ (∀ c, listFind configMarker s = some c → c ≠ 0 → isCharBoundary s (c - 1) = false →
        strip_config_or_extra_examples s = none)
    ∧ (∀ d, listFind configMarker s = none → listFind detailsMarker s = some d → d ≠ 0 →
        isCharBoundary s (d - 1) = false → strip_config_or_extra_examples s = none) := by
  have hcne : configMarker ≠ [] := by decide
  have hdne : detailsMarker ≠ [] := by decide
  have hclen : configMarker.length = 8 := rfl
  have hdlen : detailsMarker.length = 9 := rfl
  refine ⟨?_, ?_, ?_, ?_, ?_⟩
  · intro hc
    have step1 : truncAtMarker configMarker s = none := by
      simp only [truncAtMarker, hc]
      rfl
    simp [strip_config_or_extra_examples, step1]
  · intro hd hcnone
    have step1 : truncAtMarker configMarker s = some s :=
      truncAt_not_found hcne ((listFind_eq_none hcne s).mp hcnone)
    simp only [strip_config_or_extra_examples, step1]
    simp [truncAtMarker, hd]
  · intro c hd hc hc10
    have hc0 : c ≠ 0 := by omega
    have hcocc := (listFind_first hcne s c hc).1
    have hcfit : configMarker.length ≤ s.length - c := by
      have := isPre_length hcocc
      rwa [List.length_drop] at this
    cases hb : isCharBoundary s (c - 1) with
    | false =>
        have step1 : truncAtMarker configMarker s = none := by
          simp only [truncAtMarker, hc, if_neg hc0]
          unfold listTruncate
          rw [if_pos (by omega : c - 1 ≤ s.length), hb]
          simp
        simp [strip_config_or_extra_examples, step1]
    | true =>
        have step1 : truncAtMarker configMarker s = some (s.take (c - 1)) :=
          truncAt_found hcne hc hc0 hb
        have hfind : listFind detailsMarker (s.take (c - 1)) = some 0 :=
          listFind_take_of hdne hd (by omega)
        simp only [strip_config_or_extra_examples, step1]
        simp [truncAtMarker, hfind]
  · intro c hc hc0 hb
    have hcocc := (listFind_first hcne s c hc).1
    have hcfit : configMarker.length ≤ s.length - c := by
      have := isPre_length hcocc
      rwa [List.length_drop] at this
    have step1 : truncAtMarker configMarker s = none := by
      simp only [truncAtMarker, hc, if_neg hc0]
      unfold listTruncate
      rw [if_pos (by omega : c - 1 ≤ s.length), hb]
      simp
    simp [strip_config_or_extra_examples, step1]
  · intro d hcnone hd hd0 hb
    have hdocc := (listFind_first hdne s d hd).1
    have hdfit : detailsMarker.length ≤ s.length - d := by
      have := isPre_length hdocc
      rwa [List.length_drop] at this
    have step1 : truncAtMarker configMarker s = some s :=
      truncAt_not_found hcne ((listFind_eq_none hcne s).mp hcnone)
    simp only [strip_config_or_extra_examples, step1]
    simp only [truncAtMarker, hd, if_neg hd0]
    unfold listTruncate
    rw [if_pos (by omega : d - 1 ≤ s.length), hb]
    simp

/-- Witness for C10 at concrete inputs: `# Config` at byte 0; `<details>` at
byte 0 with no `# Config`; `<details>` at byte 0 with `# Config` at byte 10;
`# Config` preceded by a two-byte character (truncation index inside it);
`<details>` preceded by a two-byte character. -/
theorem c10_witness :
    strip_config_or_extra_examples [35, 32, 67, 111, 110, 102, 105, 103] = none
    ∧ strip_config_or_extra_examples [60, 100, 101, 116, 97, 105, 108, 115, 62] = none
    ∧ strip_config_or_extra_examples
        [60, 100, 101, 116, 97, 105, 108, 115, 62, 10, 35, 32, 67, 111, 110, 102, 105, 103]
        = none
    ∧ strip_config_or_extra_examples [195, 164, 35, 32, 67, 111, 110, 102, 105, 103] = none
    ∧ strip_config_or_extra_examples [195, 164, 60, 100, 101, 116, 97, 105, 108, 115, 62]
        = none := by
  refine ⟨?_, ?_, ?_, ?_, ?_⟩
  · exact (c10_stage2_crashes [35, 32, 67, 111, 110, 102, 105, 103]).1 (by decide)
  · exact (c10_stage2_crashes [60, 100, 101, 116, 97, 105, 108, 115, 62]).2.1
      (by decide) (by decide)
  · exact (c10_stage2_crashes
      [60, 100, 101, 116, 97, 105, 108, 115, 62, 10, 35, 32, 67, 111, 110, 102, 105, 103]).2.2.1
      10 (by decide) (by decide) (by decide)
  · exact (c10_stage2_crashes [195, 164, 35, 32, 67, 111, 110, 102, 105, 103]).2.2.2.1 2
      (by decide) (by decide) (by decide)
  · exact (c10_stage2_crashes [195, 164, 60, 100, 101, 116, 97, 105, 108, 115, 62]).2.2.2.2 2
      (by decide) (by decide) (by decide) (by decide)

/-- Claim C3 (code bug).  With requested names
`["totally-bogus-rule", "no-undef"]` where only the second resolves, the
fetch loop itself does continue — the bad name is reported as a recoverable
error and the `no-undef` document is still fetched — but the render
pipeline's `append_link_to_docs` stage zips the one-element docs list with
the two-element name list, pairs the fetched document with
`totally-bogus-rule`, and `get_rule_by_name(..).unwrap()` panics: the
process terminates because of the bad name, against the claim. -/
theorem c3_bad_name_aborts_batch :
    (fetchLoop bogusFetch ["totally-bogus-rule", "no-undef"]).2 = ["totally-bogus-rule"]
    ∧ (fetchLoop bogusFetch ["totally-bogus-rule", "no-undef"]).1 = ["NOUNDEFDOC"]
    ∧ append_link_to_docs bogusGetRule
        (ExplanationRunner.new bogusFetch ["totally-bogus-rule", "no-undef"]).1 = none := by
  decide

/-- Claim C4 (code bug).  After an earlier requested name fails, the appended
hyperlink is not built from the rule the document belongs to: with
`["for-direction", "no-undef"]` where `for-direction` resolves but its fetch
fails, the fetched `no-undef` document is zipped with `for-direction` and
receives `for-direction`'s link line instead of its own. -/
theorem c4_link_misassigned :
    append_link_to_docs flakyGetRule
        (ExplanationRunner.new bogusFetch ["for-direction", "no-undef"]).1
      = some ⟨["NOUNDEFDOC" ++ linkLine "control-flow" "for-direction"],
          ["for-direction", "no-undef"]⟩
    ∧ linkLine "control-flow" "for-direction" ≠ linkLine "errors" "no-undef" := by
  decide

end Rslint
